import Mathlib

/-
Verification of the flipwise-site social-publish pipeline.

JavaScript strings are modelled as lists of code units (`List Char`);
machine integers that the scripts manipulate are modelled as `Nat`/`Int`/`Rat`.
Each definition below is a shallow embedding of the correspondingly named
function in the repository's scripts; network responses are passed in
explicitly as data (the scripts' `fetch` results), and thrown JS exceptions
are modelled with `Except`.
-/

namespace Flipwise

/-- A JavaScript string: its list of code units. -/
abbrev JSStr := List Char

/-- Coerce a Lean string literal to the JS string model. -/
def str (s : String) : JSStr := s.data

/-- Whitespace test used by `trim` and `split(/\s+/)`. -/
def isWs (c : Char) : Bool := c.isWhitespace

/-- JS `String.prototype.trim`. -/
def jsTrim (s : JSStr) : JSStr :=
  ((s.dropWhile isWs).reverse.dropWhile isWs).reverse

/-- JS `a.startsWith(p)`. -/
def jsStartsWith : JSStr → JSStr → Bool
  | _, [] => true
  | [], _ :: _ => false
  | c :: cs, p :: ps => c = p && jsStartsWith cs ps

/-- JS `a.includes(p)` (contiguous substring test). -/
def jsIncludes : JSStr → JSStr → Bool
  | [], pat => pat.isEmpty
  | c :: cs, pat => jsStartsWith (c :: cs) pat || jsIncludes cs pat

/-- JS `String.prototype.toLowerCase` (ASCII part, all the scripts need). -/
def jsToLower (s : JSStr) : JSStr := s.map Char.toLower

/-- Value of a maximal run of leading decimal digits, `none` when there is none
(the `NaN` outcome of `parseInt`). -/
def jsParseIntDigits (l : List Char) : Option Nat :=
  let ds := l.takeWhile Char.isDigit
  if ds.isEmpty then none
  else some (ds.foldl (fun a c => a * 10 + (c.toNat - 48)) 0)

/-- JS `parseInt(s, 10)`: skip leading whitespace, optional sign, digit prefix;
`none` models `NaN`. -/
def jsParseInt (s : JSStr) : Option Int :=
  let t := s.dropWhile isWs
  match t with
  | '-' :: r => (jsParseIntDigits r).map (fun n => -(n : Int))
  | '+' :: r => (jsParseIntDigits r).map (fun n => (n : Int))
  | r => (jsParseIntDigits r).map (fun n => (n : Int))

/-- Worker for JS `String.prototype.split` on a character-class regex such as
`/\s+/` or `/[,\s]+/`: runs of separator characters delimit the tokens, with an
empty token produced at a boundary that starts or ends the string.  `cur` holds
the reversed current token and `inSep` records that we are inside a separator
run. -/
def jsSplitRunsGo (p : Char → Bool) : List Char → List Char → Bool → List JSStr
  | [], cur, _ => [cur.reverse]
  | c :: cs, cur, inSep =>
    if p c then
      if inSep then jsSplitRunsGo p cs [] true
      else cur.reverse :: jsSplitRunsGo p cs [] true
    else jsSplitRunsGo p cs (c :: cur) false

/-- JS `s.split(re)` for a one-character-class regex `re` with `+`. -/
def jsSplitRuns (p : Char → Bool) (s : JSStr) : List JSStr :=
  jsSplitRunsGo p s [] false

/-- JS `xs.join(sep)` over an array of strings. -/
def jsJoin (sep : JSStr) : List JSStr → JSStr
  | [] => []
  | [x] => x
  | x :: y :: t => x ++ sep ++ jsJoin sep (y :: t)

/-- Decimal rendering of a natural, as JS `String(n)` for the script's
non-negative integers. -/
def natStr (n : Nat) : JSStr := (toString n).data

/- ---------- scripts/igPublish.js : probeImage (Availability Prober) ---------- -/

/-- The observable part of a `HEAD` fetch response read by `probeImage`:
`ok`, and the `content-type` / `content-length` headers (`none` = header
absent). -/
structure ProbeResponse where
  ok : Bool
  contentType : Option JSStr
  contentLength : Option JSStr

/-- JS `r.headers.get(name) || dflt`: the header's value unless the header is
absent or empty (both falsy), in which case the default. -/
def headerOr (h : Option JSStr) (dflt : JSStr) : JSStr :=
  match h with
  | none => dflt
  | some v => if v.isEmpty then dflt else v

/-- scripts/igPublish.js `probeImage` (lines 70-95), given the response of its
single `HEAD` fetch.  A fetch that throws is caught and also yields `false`,
so only the received-response path is modelled. -/
def probeImage (r : ProbeResponse) : Bool :=
  if !r.ok then false
  else
    let ct := jsToLower (headerOr r.contentType [])
    jsIncludes ct (str "image/") &&
      (match jsParseInt (headerOr r.contentLength (str "0")) with
        | some n => decide (10000 < n)
        | none => false)

/- ---------- scripts/igPublish.js : probeWithRetry ---------- -/

/-- Delay in milliseconds before attempt `i` of `probeWithRetry`:
`i === 1 ? 0 : 1000 * Math.pow(1.5, i - 2)` (exact in the range used). -/
def probeDelay (i : Nat) : Rat :=
  if i = 1 then 0 else 1000 * (3 / 2 : Rat) ^ (i - 2)

/-- Outcome of a `probeWithRetry` run: the returned boolean, the number of
probe attempts performed, and the list of positive delays slept. -/
structure ProbeRun where
  ok : Bool
  attempts : Nat
  delays : List Rat
  deriving DecidableEq

/-- The `for (let i = 1; i <= maxRetries; i++)` loop of `probeWithRetry`
(scripts/igPublish.js lines 98-115), with the remaining iteration count as
fuel: attempt `i` sleeps `probeDelay i` when positive, probes, and returns
`true` on success; falling off the loop returns `false`. -/
def probeWithRetryGo (probe : Nat → Bool) (i : Nat) : Nat → ProbeRun
  | 0 => ⟨false, 0, []⟩
  | fuel + 1 =>
    let ds := if 0 < probeDelay i then [probeDelay i] else []
    if probe i then ⟨true, 1, ds⟩
    else
      let r := probeWithRetryGo probe (i + 1) fuel
      ⟨r.ok, r.attempts + 1, ds ++ r.delays⟩

/-- scripts/igPublish.js `probeWithRetry(url, maxRetries)`, with `probe i`
standing for the result of `probeImage` on attempt `i`. -/
def probeWithRetry (probe : Nat → Bool) (maxRetries : Nat) : ProbeRun :=
  probeWithRetryGo probe 1 maxRetries

/- ---------- scripts/igPublish.js : normalizeHashtags / buildCaption ---------- -/

/-- JS `\w` word-character test (`[A-Za-z0-9_]`). -/
def isWordChar (c : Char) : Bool := c.isAlphanum || c = '_'

/-- scripts/igPublish.js `normalizeHashtags` (lines 49-57): split the tag
string on runs of commas/whitespace, trim, drop empties, prefix each token
with `#` (stripping non-word characters) unless it already starts with `#`,
and join with single spaces. -/
def normalizeHashtags (s : JSStr) : JSStr :=
  if s.isEmpty then []
  else
    let parts := (((jsSplitRuns (fun c => c = ',' || isWs c) s).map jsTrim).filter
      (fun t => !t.isEmpty)).map
      (fun t => if jsStartsWith t (str "#") then t else '#' :: t.filter isWordChar)
    if parts.isEmpty then [] else jsJoin (str " ") parts

/-- scripts/igPublish.js `buildCaption` (lines 59-65) over the content fields:
trim the four chunks, drop the empty ones, join with a blank line, trim, and
truncate to 2200 characters. -/
def buildCaption (title excerpt tags url : JSStr) : JSStr :=
  let hashtags := normalizeHashtags tags
  let chunks := ([title, excerpt, hashtags, url].map jsTrim).filter (fun c => !c.isEmpty)
  (jsTrim (jsJoin (str "\n\n") chunks)).take 2200

/-- The caption as the spec's sentence states it: the `"\n\n"`-joined
concatenation of only the non-empty provided fields in the fixed order title,
excerpt, hashtags, url, truncated to the platform's 2200-character cap. -/
def specCaption (title excerpt tags url : JSStr) : JSStr :=
  (jsJoin (str "\n\n")
    (([title, excerpt, normalizeHashtags tags, url].map jsTrim).filter
      (fun c => !c.isEmpty))).take 2200

/- ---------- scripts/renderSocialImage.js : wrapLines ---------- -/

/-- The `for (const w of words)` loop of `wrapLines`
(scripts/renderSocialImage.js lines 10-19), returning the `(lines, line)`
state at loop exit; `jsNext` is the loop's `next` value.  The `break` fires
when `lines.length === maxLines - 1` right after a push; for `maxLines = 0`
the JS comparison is against `-1` and never fires, which the `Nat`
subtraction mirrors since the pushed list is never empty. -/
def jsNext (line w : JSStr) : JSStr := if !line.isEmpty then line ++ [' '] ++ w else w

def wrapLoop (maxChars maxLines : Nat) : List JSStr → List JSStr → JSStr → List JSStr × JSStr
  | [], lines, line => (lines, line)
  | w :: ws, lines, line =>
    if (jsNext line w).length ≤ maxChars then wrapLoop maxChars maxLines ws lines (jsNext line w)
    else if (lines ++ [line]).length = maxLines - 1 then (lines ++ [line], w)
    else wrapLoop maxChars maxLines ws (lines ++ [line]) w

/-- scripts/renderSocialImage.js `wrapLines(text, maxChars, maxLines)`
(lines 6-22). -/
def wrapLines (text : JSStr) (maxChars maxLines : Nat) : List JSStr :=
  let words := jsSplitRuns isWs text
  let r := wrapLoop maxChars maxLines words [] []
  if r.1.length < maxLines && !r.2.isEmpty then r.1 ++ [r.2] else r.1

/- ---------- scripts/igPublish.js : getPageToken (Credential Resolver) ---------- -/

/-- One entry of the `me/accounts` list as read by `getPageToken`: its `id`
and, when present, its embedded page `access_token`. -/
structure PageEntry where
  id : JSStr
  access_token : Option JSStr
  deriving DecidableEq

/-- Outcome of `getPageToken`: the page token, the configuration error thrown
when the accounts list is absent/malformed (`me/accounts failed`), or the
not-found error (`PAGE_TOKEN not found`). -/
inductive PageTokenResult
  | ok (token : JSStr)
  | configError (msg : JSStr)
  | notFound (msg : JSStr)
  deriving DecidableEq

/-- scripts/igPublish.js `getPageToken` (lines 216-229), given the parsed
`me/accounts` response: `accounts = none` models a response whose `data`
field is absent or falsy.  `find` returns the first entry whose `id` matches;
a missing match or a missing/empty (falsy) `access_token` raises the
not-found error. -/
def getPageToken (pageId : JSStr) (accounts : Option (List PageEntry)) : PageTokenResult :=
  match accounts with
  | none => .configError (str "me/accounts failed")
  | some pages =>
    match pages.find? (fun p => decide (p.id = pageId)) with
    | none => .notFound (str "PAGE_TOKEN not found")
    | some page =>
      match page.access_token with
      | none => .notFound (str "PAGE_TOKEN not found")
      | some tok => if tok.isEmpty then .notFound (str "PAGE_TOKEN not found") else .ok tok

/- ---------- scripts/instagram.mjs : waitUntilFinished (readiness wait) ---------- -/

/-- The terminal test of `waitUntilFinished`: `s === 'FINISHED' || !s`, where
an absent or empty `status_code` is falsy and hence ready. -/
def statusReady (s : Option JSStr) : Bool :=
  match s with
  | none => true
  | some v => decide (v = str "FINISHED") || v.isEmpty

/-- Result of a `waitUntilFinished` run: success or a processing error after
the poll with the given index (0-based), or the timeout error. -/
inductive WaitResult
  | finished (polls : Nat)
  | processingError (polls : Nat)
  | timeoutError
  deriving DecidableEq

/-- The `while (Date.now() - start < timeoutMs)` loop of `waitUntilFinished`
(scripts/instagram.mjs in src/unnamed/part_009, lines 1415-1426): poll `k`
happens at elapsed time `k * pollMs` (the `await sleep(pollMs)` between
polls being the only modelled passage of time); a ready status returns, an
`ERROR` status throws the processing error, anything else sleeps and polls
again, and the loop guard failing first throws the timeout error. -/
def waitUntilFinishedGo (status : Nat → Option JSStr) (pollMs timeoutMs : Nat)
    (hp : 0 < pollMs) (k elapsed : Nat) : WaitResult :=
  if _h : elapsed < timeoutMs then
    if statusReady (status k) then .finished k
    else if status k = some (str "ERROR") then .processingError k
    else waitUntilFinishedGo status pollMs timeoutMs hp (k + 1) (elapsed + pollMs)
  else .timeoutError
termination_by timeoutMs - elapsed
decreasing_by omega

/-- scripts/instagram.mjs `waitUntilFinished({creationId, pageToken,
timeoutMs, pollMs})`, with `status k` the `status_code` field of the `k`-th
poll's response (`none` = field absent). -/
def waitUntilFinished (status : Nat → Option JSStr) (timeoutMs pollMs : Nat)
    (hp : 0 < pollMs) : WaitResult :=
  waitUntilFinishedGo status pollMs timeoutMs hp 0 0

/- ---------- scripts/new-post.mjs : writePost index update ---------- -/

/-- A summary entry of `public/content/index.json` as written by `writePost`. -/
structure IndexEntry where
  slug : JSStr
  title : JSStr
  date : JSStr
  excerpt : JSStr
  image : JSStr
  deriving DecidableEq

/-- The index update performed by scripts/new-post.mjs `writePost`
(lines 13-17): drop every existing entry with the written slug, then
`unshift` the new summary entry to the front. -/
def writePostIndex (idx : List IndexEntry) (e : IndexEntry) : List IndexEntry :=
  e :: idx.filter (fun p => !decide (p.slug = e.slug))

/-- Number of index entries carrying a given slug. -/
def countSlug (idx : List IndexEntry) (s : JSStr) : Nat :=
  (idx.filter (fun p => decide (p.slug = s))).length

/- ---------- scripts/igPublish.js : graph POST helpers and publishMedia ---------- -/

/-- JS truthiness of an optional string field such as `j.id`: absent or empty
is falsy. -/
def truthyOpt (v : Option JSStr) : Bool :=
  match v with
  | none => false
  | some s => !s.isEmpty

/-- The part of a Graph API POST response read by `createMediaContainer` and
`publishMedia`: `r.ok`, the HTTP status, the `id` field, and the error
code/subcode fields that the platform sends on failures (the scripts never
read the latter two). -/
structure GraphPostResponse where
  ok : Bool
  status : Nat
  id : Option JSStr
  errorCode : Option Nat
  errorSubcode : Option Nat
  deriving DecidableEq

/-- scripts/igPublish.js `createMediaContainer` (lines 245-269), given its
single fetch's response. -/
def createMediaContainer (r : GraphPostResponse) : Except JSStr JSStr :=
  if !r.ok || !truthyOpt r.id then Except.error (str "IG create container failed")
  else Except.ok (r.id.getD [])

/-- scripts/igPublish.js `publishMedia` (lines 271-286), given its single
fetch's response: any response without `ok` and a truthy `id` throws, and the
error code/subcode fields are never inspected. -/
def publishMedia (r : GraphPostResponse) : Except JSStr JSStr :=
  if !r.ok || !truthyOpt r.id then Except.error (str "IG media_publish failed")
  else Except.ok (r.id.getD [])

/-- A call to `publishMedia` against a platform that would answer the `i`-th
publish request with `responses i`: the function body performs exactly one
`fetch`, unconditionally, so the run consumes `responses 0` and reports one
attempt. -/
def publishMediaRun (responses : Nat → GraphPostResponse) : Except JSStr JSStr × Nat :=
  (publishMedia (responses 0), 1)

/-- scripts/igPublish.js `getInstagramUserId` (lines 231-243), given the
`connected_instagram_account.id` field of its response (`none` = absent). -/
def getInstagramUserId (igId : Option JSStr) : Except JSStr JSStr :=
  match igId with
  | none => Except.error (str "connected_instagram_account not found")
  | some v =>
    if v.isEmpty then Except.error (str "connected_instagram_account not found")
    else Except.ok v

/- ---------- Cloudinary signed uploads (fbPublish.js / igPublish.js) ---------- -/

/-- JS default `Array.prototype.sort` comparison on strings: lexicographic on
code units. -/
def jsStrLt : JSStr → JSStr → Bool
  | [], [] => false
  | [], _ :: _ => true
  | _ :: _, [] => false
  | a :: as, b :: bs =>
    if a.toNat < b.toNat then true
    else if b.toNat < a.toNat then false
    else jsStrLt as bs

/-- Insertion into a key-sorted association list (stable). -/
def insertPairByKey (kv : JSStr × JSStr) : List (JSStr × JSStr) → List (JSStr × JSStr)
  | [] => [kv]
  | p :: ps => if jsStrLt kv.1 p.1 then kv :: p :: ps else p :: insertPairByKey kv ps

/-- Sort an association list by key, as `Object.keys(params).sort()` induces. -/
def sortPairsByKey : List (JSStr × JSStr) → List (JSStr × JSStr)
  | [] => []
  | p :: ps => insertPairByKey p (sortPairsByKey ps)

/-- Render one parameter as the `key=value` fragment. -/
def renderPair (kv : JSStr × JSStr) : JSStr := kv.1 ++ str "=" ++ kv.2

/-- The parameters `signedCloudinaryUploadJpgBuffer` signs
(scripts/fbPublish.js line 26: `params = { folder, format, timestamp }`). -/
def fbSigningParams (folder fmt : JSStr) (ts : Nat) : List (JSStr × JSStr) :=
  [(str "folder", folder), (str "format", fmt), (str "timestamp", natStr ts)]

/-- scripts/fbPublish.js line 27: the string hashed with SHA-1 to produce the
upload signature — the key-sorted `key=value` join of the signing parameters
followed by the API secret. -/
def fbToSign (folder fmt : JSStr) (ts : Nat) (secret : JSStr) : JSStr :=
  jsJoin (str "&") ((sortPairsByKey (fbSigningParams folder fmt ts)).map renderPair) ++ secret

/-- The form parameters `signedCloudinaryUploadJpgBuffer` sends
(scripts/fbPublish.js lines 31-39), in insertion order; `public_id` is sent
only when non-empty. -/
def fbRequestParams (fileDataUri apiKey : JSStr) (ts : Nat)
    (folder fmt signature publicId : JSStr) : List (JSStr × JSStr) :=
  [(str "file", fileDataUri), (str "api_key", apiKey), (str "timestamp", natStr ts),
   (str "folder", folder), (str "format", fmt), (str "signature", signature)] ++
  (if publicId.isEmpty then [] else [(str "public_id", publicId)])

/-- Uppercase hex digit of a nibble, as `encodeURIComponent` emits. -/
def hexDigit (n : Nat) : Char := if n < 10 then Char.ofNat (48 + n) else Char.ofNat (55 + n)

/-- A percent-encoded byte `%XY`. -/
def percentByte (b : Nat) : JSStr := ['%', hexDigit (b / 16), hexDigit (b % 16)]

/-- UTF-8 bytes of a code point. -/
def utf8Bytes (n : Nat) : List Nat :=
  if n < 128 then [n]
  else if n < 2048 then [192 + n / 64, 128 + n % 64]
  else if n < 65536 then [224 + n / 4096, 128 + (n / 64) % 64, 128 + n % 64]
  else [240 + n / 262144, 128 + (n / 4096) % 64, 128 + (n / 64) % 64, 128 + n % 64]

/-- Characters `encodeURIComponent` leaves unescaped: alphanumerics and
`-_.!~*'()` (the apostrophe being code point 39). -/
def isUriUnescaped (c : Char) : Bool :=
  c.isAlphanum || c = '-' || c = '_' || c = '.' || c = '!' || c = '~' || c = '*' ||
    c.toNat = 39 || c = '(' || c = ')'

/-- JS `encodeURIComponent`. -/
def encodeURIComponent (s : JSStr) : JSStr :=
  s.foldr
    (fun c acc =>
      (if isUriUnescaped c then [c]
       else (utf8Bytes c.toNat).foldr (fun b a => percentByte b ++ a) []) ++ acc)
    []

/-- JS `String.prototype.toUpperCase` (ASCII part). -/
def jsToUpper (s : JSStr) : JSStr := s.map Char.toUpper

/-- JS `.replace(/\n/g, " ")`. -/
def newlineToSpace (s : JSStr) : JSStr := s.map (fun c => if c = '\n' then ' ' else c)

/-- The eager transform string of `uploadToCloudinaryWithEager`
(scripts/igPublish.js lines 128-136), from the overlay title and subtitle. -/
def igEagerTransform (title sub : JSStr) : JSStr :=
  let H1 := newlineToSpace (jsToUpper title)
  let SUB := newlineToSpace (jsToUpper sub)
  str "ar_1:1,c_fill,w_1080,h_1080,g_auto,fl_strip_profile,q_auto,f_jpg" ++
  str "/e_colorize:70,co_rgb:000000" ++
  str "/l_text:Montserrat_90_bold:" ++ encodeURIComponent H1 ++
    str ",co_rgb:ffffff,g_center,y_-60" ++
  str "/l_text:Montserrat_32_bold:" ++ encodeURIComponent SUB ++
    str ",co_rgb:ffffff,g_center,y_360"

/-- scripts/igPublish.js lines 141-146: the string hashed with SHA-1 for the
eager upload's signature, built by template-literal concatenation. -/
def igToSign (eager folder fmt : JSStr) (ts : Nat) (secret : JSStr) : JSStr :=
  str "eager=" ++ eager ++ str "&folder=" ++ folder ++ str "&format=" ++ fmt ++
    str "&timestamp=" ++ natStr ts ++ secret

/-- The form parameters `uploadToCloudinaryWithEager` sends
(scripts/igPublish.js lines 149-158), in insertion order. -/
def igRequestParams (fileUrl apiKey : JSStr) (ts : Nat)
    (folder eager fmt signature : JSStr) : List (JSStr × JSStr) :=
  [(str "file", fileUrl), (str "api_key", apiKey), (str "timestamp", natStr ts),
   (str "folder", folder), (str "eager", eager), (str "format", fmt),
   (str "signature", signature), (str "async", str "false")]

/-- src/unnamed/part_004 lines 96-102: the fbPublish eager-upload variant's
signing string, built by template-literal concatenation; unlike the
igPublish.js variant it signs `async=false` as well. -/
def fbEagerToSign (eager folder fmt : JSStr) (ts : Nat) (secret : JSStr) : JSStr :=
  str "async=false" ++ str "&eager=" ++ eager ++ str "&folder=" ++ folder ++
    str "&format=" ++ fmt ++ str "&timestamp=" ++ natStr ts ++ secret

/-- The form parameters the part_004 eager upload sends (lines 105-114), in
insertion order. -/
def fbEagerRequestParams (fileUrl apiKey : JSStr) (ts : Nat)
    (folder eager fmt signature : JSStr) : List (JSStr × JSStr) :=
  [(str "file", fileUrl), (str "api_key", apiKey), (str "timestamp", natStr ts),
   (str "folder", folder), (str "eager", eager), (str "format", fmt),
   (str "async", str "false"), (str "signature", signature)]

/-- The signing string as the claim states it: the lexicographically
key-sorted `key=value` parameter string covering every parameter sent in the
request except the file payload and the signature itself, concatenated with
the shared secret.  The SHA-1 step applies to this string on both sides, so
the claim is compared at the level of the hashed strings. -/
def claimedSigningString (requestParams : List (JSStr × JSStr)) (secret : JSStr) : JSStr :=
  jsJoin (str "&")
    ((sortPairsByKey (requestParams.filter
      (fun kv => !decide (kv.1 = str "file") && !decide (kv.1 = str "signature")))).map
        renderPair) ++ secret

/- ---------- scripts/igPublish.js : uploadToCloudinaryWithEager and main ---------- -/

/-- The fields of the Cloudinary upload JSON read by
`uploadToCloudinaryWithEager`: `res.ok`, the HTTP status, the `eager` array
(`none` = absent or not an array) and the top-level `public_id`. -/
structure EagerItem where
  public_id : Option JSStr
  secure_url : Option JSStr
  deriving DecidableEq

structure UploadResponse where
  ok : Bool
  status : Nat
  eager : Option (List EagerItem)
  public_id : Option JSStr
  deriving DecidableEq

/-- The environment-variable surface of scripts/igPublish.js (lines 27-41);
a missing variable is the empty string, exactly as the script's `|| ""`
defaults and falsy `requireEnv` checks treat it. -/
structure Env where
  PAGE_ID : JSStr
  FB_LONG_USER_TOKEN : JSStr
  MEDIA_URL : JSStr
  POST_TITLE : JSStr
  POST_EXCERPT : JSStr
  POST_URL : JSStr
  POST_TAGS : JSStr
  IS_VIDEO : JSStr
  SOCIAL_TITLE : JSStr
  CLOUDINARY_CLOUD_NAME : JSStr
  CLOUDINARY_API_KEY : JSStr
  CLOUDINARY_API_SECRET : JSStr

/-- scripts/igPublish.js line 35: `String(process.env.IS_VIDEO ||
"false").toLowerCase() === "true"`. -/
def isVideoEnv (e : Env) : Bool :=
  decide (jsToLower (if e.IS_VIDEO.isEmpty then str "false" else e.IS_VIDEO) = str "true")

/-- The clean static URL built from a derived asset's public id
(scripts/igPublish.js lines 190 and 202). -/
def cloudinaryStaticUrl (cloud pid : JSStr) : JSStr :=
  str "https://res.cloudinary.com/" ++ cloud ++ str "/image/upload/" ++ pid ++ str ".jpg"

/-- scripts/igPublish.js `uploadToCloudinaryWithEager` (lines 117-212), given
the upload response: the three `requireEnv` checks run before the single
fetch, so the second component reports how many network calls the function
performed (0 when an environment check threw, 1 otherwise).  After a
successful fetch the static URL is extracted from the first eager item's
`public_id`, else its `secure_url` when free of transform parameters, else
the top-level `public_id`, else the call throws. -/
def uploadToCloudinaryWithEagerRun (e : Env) (resp : UploadResponse) :
    Except JSStr JSStr × Nat :=
  if e.CLOUDINARY_CLOUD_NAME.isEmpty then
    (Except.error (str "Missing env: CLOUDINARY_CLOUD_NAME"), 0)
  else if e.CLOUDINARY_API_KEY.isEmpty then
    (Except.error (str "Missing env: CLOUDINARY_API_KEY"), 0)
  else if e.CLOUDINARY_API_SECRET.isEmpty then
    (Except.error (str "Missing env: CLOUDINARY_API_SECRET"), 0)
  else if !resp.ok then (Except.error (str "Cloudinary upload failed"), 1)
  else
    match resp.eager with
    | none => (Except.error (str "Cloudinary eager transform failed"), 1)
    | some [] => (Except.error (str "Cloudinary eager transform failed"), 1)
    | some (ed :: _) =>
      if truthyOpt ed.public_id then
        (Except.ok (cloudinaryStaticUrl e.CLOUDINARY_CLOUD_NAME (ed.public_id.getD [])), 1)
      else if truthyOpt ed.secure_url &&
          !(jsIncludes (ed.secure_url.getD []) (str "/upload/ar_")) then
        (Except.ok (ed.secure_url.getD []), 1)
      else if truthyOpt resp.public_id then
        (Except.ok (cloudinaryStaticUrl e.CLOUDINARY_CLOUD_NAME (resp.public_id.getD [])), 1)
      else (Except.error (str "Cannot construct static URL"), 1)

/-- The network responses a `main` run would observe, one field per call site
(responses are fixed per site; request payloads do not influence them). -/
structure NetOracle where
  probeOriginal : ProbeResponse
  upload : UploadResponse
  probeEager : Nat → ProbeResponse
  probeFinal : ProbeResponse
  accounts : Option (List PageEntry)
  igAccount : Option JSStr
  createContainer : GraphPostResponse
  publish : GraphPostResponse

/-- Outcome of a `main` run: the success JSON's media id, or the message of
the error that aborted the run. -/
inductive RunOutcome
  | success (mediaId : JSStr)
  | failure (msg : JSStr)
  deriving DecidableEq

/-- The tail of `main` from the authentication step on (scripts/igPublish.js
lines 350-367): `getPageToken`, `getInstagramUserId`, `createMediaContainer`,
`publishMedia`, each one fetch, aborting at the first thrown error.  `calls`
is the number of network calls already made. -/
def mainGraphPhase (e : Env) (o : NetOracle) (calls : Nat) : RunOutcome × Nat :=
  match getPageToken e.PAGE_ID o.accounts with
  | .configError m => (.failure m, calls + 1)
  | .notFound m => (.failure m, calls + 1)
  | .ok _pageToken =>
    match getInstagramUserId o.igAccount with
    | .error m => (.failure m, calls + 2)
    | .ok _igId =>
      match createMediaContainer o.createContainer with
      | .error m => (.failure m, calls + 3)
      | .ok _creationId =>
        match publishMedia o.publish with
        | .error m => (.failure m, calls + 4)
        | .ok mediaId => (.success mediaId, calls + 4)

/-- The pre-publish final validation of `main` (scripts/igPublish.js lines
340-348): images get one more probe and abort when it fails; videos skip it. -/
def mainFinalCheckAndGraph (e : Env) (o : NetOracle) (calls : Nat) : RunOutcome × Nat :=
  if isVideoEnv e then mainGraphPhase e o calls
  else if probeImage o.probeFinal then mainGraphPhase e o (calls + 1)
  else (.failure (str "Final media URL failed validation"), calls + 1)

/-- scripts/igPublish.js `main` (lines 290-371) as a function from the
environment and the network oracle to the run outcome and the total number of
network calls made before the run ended.  The caption and overlay title are
computed purely and shipped only inside request payloads, which the oracle
ignores, so they do not appear here.  On the image path `main` probes the
original URL (continuing on failure with only a warning), uploads to
Cloudinary, probes the eager URL with up to 5 retries, falls back to the
original URL when those probes fail, aborting when the original probe had
failed too. -/
def mainRun (e : Env) (o : NetOracle) : RunOutcome × Nat :=
  if e.PAGE_ID.isEmpty then (.failure (str "Missing env: PAGE_ID"), 0)
  else if e.FB_LONG_USER_TOKEN.isEmpty then (.failure (str "Missing env: FB_LONG_USER_TOKEN"), 0)
  else if e.MEDIA_URL.isEmpty then (.failure (str "Missing env: MEDIA_URL"), 0)
  else if isVideoEnv e then mainFinalCheckAndGraph e o 0
  else
    let originalValid := probeImage o.probeOriginal
    match uploadToCloudinaryWithEagerRun e o.upload with
    | (Except.error m, n) => (.failure m, 1 + n)
    | (Except.ok _eagerUrl, n) =>
      let pr := probeWithRetry (fun i => probeImage (o.probeEager i)) 5
      if pr.ok then mainFinalCheckAndGraph e o (1 + n + pr.attempts)
      else if !originalValid then
        (.failure (str "Both eager URL and original MEDIA_URL failed validation. Cannot proceed."),
         1 + n + pr.attempts)
      else mainFinalCheckAndGraph e o (1 + n + pr.attempts)

/-- The environment with every variable missing. -/
def envAllEmpty : Env := ⟨[], [], [], [], [], [], [], [], [], [], [], []⟩

/-- An environment with the three `main`-validated variables present but the
required CLOUDINARY_CLOUD_NAME missing, on the image path. -/
def envNoCloudName : Env :=
  ⟨str "page1", str "usertok", str "https://example.com/img.jpg", [], [], [], [], [], [],
   [], str "apikey", str "apisecret"⟩

/-- A concrete all-success network oracle for closed instances. -/
def oracleAllOk : NetOracle :=
  ⟨⟨true, some (str "image/jpeg"), some (str "50000")⟩,
   ⟨true, 200,
    some [⟨some (str "pid"), some (str "https://res.cloudinary.com/c/image/upload/pid.jpg")⟩],
    some (str "base")⟩,
   fun _ => ⟨true, some (str "image/jpeg"), some (str "50000")⟩,
   ⟨true, some (str "image/jpeg"), some (str "50000")⟩,
   some [⟨str "page1", some (str "ptok")⟩],
   some (str "ig9"),
   ⟨true, 200, some (str "c1"), none, none⟩,
   ⟨true, 200, some (str "m1"), none, none⟩⟩

/- ==================== theorems ==================== -/

/-- C6: a single probe of a URL reports it valid iff the header-only fetch
returned a success status, the (lowercased) content-type contains `image/`,
and the parsed content-length exceeds the 10000-byte threshold; in particular
a 200 response with `content-type: image/jpeg` and `content-length: 50000` is
valid and one with `content-length: 500` is invalid. -/
theorem probeImage_valid_iff :
    (∀ r : ProbeResponse,
      probeImage r = true ↔
        r.ok = true ∧
        jsIncludes (jsToLower (headerOr r.contentType [])) (str "image/") = true ∧
        ∃ n : Int, jsParseInt (headerOr r.contentLength (str "0")) = some n ∧ 10000 < n) ∧
    probeImage ⟨true, some (str "image/jpeg"), some (str "50000")⟩ = true ∧
    probeImage ⟨true, some (str "image/jpeg"), some (str "500")⟩ = false := by
  refine ⟨?_, by decide, by decide⟩
  intro r
  cases r with
  | mk ok ct cl =>
    cases ok with
    | false => simp [probeImage]
    | true =>
      simp only [probeImage, Bool.not_true, Bool.false_eq_true, if_false, Bool.and_eq_true,
        true_and]
      cases h : jsParseInt (headerOr cl (str "0")) with
      | none => simp [h]
      | some n => simp [h]

theorem probeDelay_pos (i : Nat) (h : 2 ≤ i) : 0 < probeDelay i := by
  unfold probeDelay
  rw [if_neg (by omega)]
  positivity

theorem probeDelay_succ_eq (i : Nat) (h : 2 ≤ i) :
    probeDelay (i + 1) = (3 / 2 : Rat) * probeDelay i := by
  unfold probeDelay
  rw [if_neg (by omega), if_neg (by omega)]
  have h2 : i + 1 - 2 = (i - 2) + 1 := by omega
  rw [h2, pow_succ]
  ring

theorem probeDelay_lt_succ (i : Nat) (h : 2 ≤ i) : probeDelay i < probeDelay (i + 1) := by
  rw [probeDelay_succ_eq i h]
  have hp := probeDelay_pos i h
  nlinarith

theorem probeDelay_chain (m : Nat) : ∀ i, 2 ≤ i →
    List.Chain' (fun a b : Rat => a < b) ((List.range' i m).map probeDelay) := by
  induction m with
  | zero => simp
  | succ n ih =>
    intro i hi
    rw [List.range'_succ]
    cases n with
    | zero => simp
    | succ k =>
      rw [List.range'_succ]
      simp only [List.map_cons]
      refine List.chain'_cons.mpr ⟨probeDelay_lt_succ i hi, ?_⟩
      have h := ih (i + 1) (by omega)
      rw [List.range'_succ] at h
      simpa using h

theorem probeGo_allFalse (probe : Nat → Bool) (hf : ∀ i, probe i = false) :
    ∀ fuel i, 2 ≤ i →
      probeWithRetryGo probe i fuel = ⟨false, fuel, (List.range' i fuel).map probeDelay⟩ := by
  intro fuel
  induction fuel with
  | zero => intro i hi; simp [probeWithRetryGo]
  | succ n ih =>
    intro i hi
    rw [List.range'_succ]
    simp only [probeWithRetryGo, hf i, if_pos (probeDelay_pos i hi), Bool.false_eq_true,
      if_false, List.map_cons]
    rw [ih (i + 1) (by omega)]
    simp

/-- C5: when every probe attempt is invalid, `probeWithRetry` performs exactly
`maxRetries` attempts and returns `false` (no exception is raised: the model is
a total function into `ProbeRun`); the first attempt is immediate
(`probeDelay 1 = 0`), the slept delays are those of attempts `2..maxRetries`,
they are strictly increasing, and from the second attempt on each next delay
is the previous one multiplied by the fixed factor `3/2 > 1`. -/
theorem probeWithRetry_exhaustion (probe : Nat → Bool) (maxRetries : Nat)
    (hf : ∀ i, probe i = false) :
    (probeWithRetry probe maxRetries).ok = false ∧
    (probeWithRetry probe maxRetries).attempts = maxRetries ∧
    (probeWithRetry probe maxRetries).delays = (List.range' 2 (maxRetries - 1)).map probeDelay ∧
    List.Chain' (fun a b : Rat => a < b) ((0 : Rat) :: (probeWithRetry probe maxRetries).delays) ∧
    probeDelay 1 = 0 ∧
    (∀ i, 2 ≤ i → probeDelay (i + 1) = (3 / 2 : Rat) * probeDelay i) := by
  have hrun : probeWithRetry probe maxRetries =
      ⟨false, maxRetries, (List.range' 2 (maxRetries - 1)).map probeDelay⟩ := by
    cases maxRetries with
    | zero => simp [probeWithRetry, probeWithRetryGo]
    | succ m =>
      unfold probeWithRetry
      simp only [probeWithRetryGo, hf 1, Bool.false_eq_true, if_false]
      rw [if_neg (by simp [probeDelay])]
      rw [probeGo_allFalse probe hf m 2 (by omega)]
      simp
  refine ⟨by rw [hrun], by rw [hrun], by rw [hrun], ?_, by simp [probeDelay],
    fun i hi => probeDelay_succ_eq i hi⟩
  rw [hrun]
  cases h : maxRetries - 1 with
  | zero => simp
  | succ k =>
    rw [List.range'_succ]
    simp only [List.map_cons]
    refine List.chain'_cons.mpr ⟨?_, ?_⟩
    · have : probeDelay 2 = 1000 := by norm_num [probeDelay]
      rw [this]; norm_num
    · have hch := probeDelay_chain (k + 1) 2 (by omega)
      rw [List.range'_succ] at hch
      simpa using hch

/-- Witness for C5 at `maxRetries = 5` with an always-failing probe. -/
theorem probeWithRetry_exhaustion_witness :
    (probeWithRetry (fun _ => false) 5).ok = false ∧
    (probeWithRetry (fun _ => false) 5).attempts = 5 := by
  have h := probeWithRetry_exhaustion (fun _ => false) 5 (fun _ => rfl)
  exact ⟨h.1, h.2.1⟩

/- ---------- trim/join infrastructure for the caption theorem ---------- -/

theorem dropWhile_head_false {p : Char → Bool} {a : Char} {t : List Char}
    (h : (a :: t).dropWhile p = a :: t) : p a = false := by
  cases hpa : p a with
  | false => rfl
  | true =>
    rw [List.dropWhile_cons, hpa] at h
    simp only [if_true] at h
    have hlen := (List.dropWhile_sublist (p := p) (l := t)).length_le
    rw [h] at hlen
    simp at hlen

theorem dropWhile_self_idem (p : Char → Bool) (l : List Char) :
    (l.dropWhile p).dropWhile p = l.dropWhile p := by
  induction l with
  | nil => simp
  | cons a t ih =>
    cases hpa : p a with
    | true => simp [List.dropWhile_cons, hpa, ih]
    | false => simp [List.dropWhile_cons, hpa]

theorem dropWhile_eq_self_of_append {p : Char → Bool} {x y : List Char}
    (h : (x ++ y).dropWhile p = x ++ y) : x.dropWhile p = x := by
  cases x with
  | nil => simp
  | cons a t =>
    have ha : p a = false := dropWhile_head_false (t := t ++ y) (by simpa using h)
    simp [List.dropWhile_cons, ha]

theorem dropWhile_append_of_left {p : Char → Bool} {c : List Char}
    (hc : c.dropWhile p = c) (hne : c ≠ []) (l : List Char) :
    (c ++ l).dropWhile p = c ++ l := by
  cases c with
  | nil => exact absurd rfl hne
  | cons a t =>
    have ha : p a = false := dropWhile_head_false hc
    simp [List.dropWhile_cons, ha]

theorem jsTrim_noLead (s : JSStr) : (jsTrim s).dropWhile isWs = jsTrim s := by
  have key : ∀ a : JSStr, a.dropWhile isWs = a →
      ((a.reverse.dropWhile isWs).reverse).dropWhile isWs = (a.reverse.dropWhile isWs).reverse := by
    intro a ha
    have hsplit : a = (a.reverse.dropWhile isWs).reverse ++ (a.reverse.takeWhile isWs).reverse := by
      conv_lhs => rw [← List.reverse_reverse a,
        ← List.takeWhile_append_dropWhile (p := isWs) (l := a.reverse), List.reverse_append]
    rw [hsplit] at ha
    exact dropWhile_eq_self_of_append ha
  exact key (s.dropWhile isWs) (dropWhile_self_idem isWs s)

theorem jsTrim_noTrail (s : JSStr) :
    (jsTrim s).reverse.dropWhile isWs = (jsTrim s).reverse := by
  unfold jsTrim
  rw [List.reverse_reverse]
  exact dropWhile_self_idem isWs _

theorem jsTrim_eq_self (l : JSStr) (h1 : l.dropWhile isWs = l)
    (h2 : l.reverse.dropWhile isWs = l.reverse) : jsTrim l = l := by
  unfold jsTrim
  rw [h1, h2, List.reverse_reverse]

theorem jsJoin_cons_ne (sep c : JSStr) (rest : List JSStr) (hc : c ≠ []) :
    jsJoin sep (c :: rest) ≠ [] := by
  cases rest with
  | nil => simpa [jsJoin] using hc
  | cons y t => simp [jsJoin, hc]

theorem jsJoin_noLead (sep : JSStr) (chunks : List JSStr)
    (h : ∀ c ∈ chunks, c ≠ [] ∧ c.dropWhile isWs = c) :
    (jsJoin sep chunks).dropWhile isWs = jsJoin sep chunks := by
  cases chunks with
  | nil => simp [jsJoin]
  | cons c rest =>
    obtain ⟨hne, hdw⟩ := h c (by simp)
    cases rest with
    | nil => simpa [jsJoin] using hdw
    | cons y t =>
      show (c ++ sep ++ jsJoin sep (y :: t)).dropWhile isWs = c ++ sep ++ jsJoin sep (y :: t)
      rw [List.append_assoc]
      exact dropWhile_append_of_left hdw hne _

theorem jsJoin_noTrail (sep : JSStr) (chunks : List JSStr)
    (h : ∀ c ∈ chunks, c ≠ [] ∧ c.reverse.dropWhile isWs = c.reverse) :
    (jsJoin sep chunks).reverse.dropWhile isWs = (jsJoin sep chunks).reverse := by
  induction chunks with
  | nil => simp [jsJoin]
  | cons c rest ih =>
    cases rest with
    | nil => simpa [jsJoin] using (h c (by simp)).2
    | cons y t =>
      have hy : jsJoin sep (y :: t) ≠ [] := jsJoin_cons_ne sep y t (h y (by simp)).1
      have hrec := ih (fun x hx => h x (List.mem_cons_of_mem c hx))
      show ((c ++ sep ++ jsJoin sep (y :: t)).reverse).dropWhile isWs =
        (c ++ sep ++ jsJoin sep (y :: t)).reverse
      rw [List.append_assoc, List.reverse_append, List.reverse_append, List.append_assoc]
      refine dropWhile_append_of_left hrec (by simpa using hy) _

/-- C7: for every combination of title, excerpt, tags and url, the built
caption equals the `"\n\n"`-joined concatenation of only the non-empty
(trimmed) provided fields in the fixed order title, excerpt, hashtags, url,
truncated to the 2200-character cap, and its length never exceeds 2200.  The
script's final `.trim()` after the join is proved to be the identity, which
makes the code's caption coincide with the spec's description. -/
theorem buildCaption_spec (title excerpt tags url : JSStr) :
    buildCaption title excerpt tags url = specCaption title excerpt tags url ∧
    (buildCaption title excerpt tags url).length ≤ 2200 := by
  have hchunks : ∀ c ∈ ([title, excerpt, normalizeHashtags tags, url].map jsTrim).filter
      (fun c => !c.isEmpty),
      c ≠ [] ∧ c.dropWhile isWs = c ∧ c.reverse.dropWhile isWs = c.reverse := by
    intro c hc
    rw [List.mem_filter] at hc
    obtain ⟨hmem, hne⟩ := hc
    rw [List.mem_map] at hmem
    obtain ⟨x, _, rfl⟩ := hmem
    refine ⟨?_, jsTrim_noLead x, jsTrim_noTrail x⟩
    simpa using hne
  have hjoin : jsTrim (jsJoin (str "\n\n")
      (([title, excerpt, normalizeHashtags tags, url].map jsTrim).filter
        (fun c => !c.isEmpty))) =
      jsJoin (str "\n\n")
        (([title, excerpt, normalizeHashtags tags, url].map jsTrim).filter
          (fun c => !c.isEmpty)) := by
    refine jsTrim_eq_self _ ?_ ?_
    · exact jsJoin_noLead _ _ (fun c hc => ⟨(hchunks c hc).1, (hchunks c hc).2.1⟩)
    · exact jsJoin_noTrail _ _ (fun c hc => ⟨(hchunks c hc).1, (hchunks c hc).2.2⟩)
  constructor
  · show (jsTrim (jsJoin (str "\n\n")
        (([title, excerpt, normalizeHashtags tags, url].map jsTrim).filter
          (fun c => !c.isEmpty)))).take 2200 = specCaption title excerpt tags url
    rw [hjoin]
    rfl
  · exact List.length_take_le 2200 _

/- ---------- wrapLines theorems (C9) ---------- -/

theorem wrapLoop_length_le (maxChars maxLines : Nat) (hml : 2 ≤ maxLines) :
    ∀ (ws lines : List JSStr) (line : JSStr),
      lines.length ≤ maxLines - 2 →
      (wrapLoop maxChars maxLines ws lines line).1.length ≤ maxLines - 1 := by
  intro ws
  induction ws with
  | nil => intro lines line h; simp only [wrapLoop]; omega
  | cons w t ih =>
    intro lines line h
    simp only [wrapLoop]
    split
    · exact ih lines _ h
    · split
      · next heq => simp only; omega
      · next hne =>
        apply ih
        simp only [List.length_append, List.length_cons, List.length_nil] at hne ⊢
        omega

theorem wrapLoop_width (maxChars maxLines : Nat) :
    ∀ (ws lines : List JSStr) (line : JSStr),
      (∀ w ∈ ws, w.length ≤ maxChars) →
      (∀ l ∈ lines, l.length ≤ maxChars) →
      line.length ≤ maxChars →
      (∀ l ∈ (wrapLoop maxChars maxLines ws lines line).1, l.length ≤ maxChars) ∧
      (wrapLoop maxChars maxLines ws lines line).2.length ≤ maxChars := by
  intro ws
  induction ws with
  | nil =>
    intro lines line _ hl hline
    exact ⟨hl, hline⟩
  | cons w t ih =>
    intro lines line hw hl hline
    have hwhead : w.length ≤ maxChars := hw w (by simp)
    have hwtail : ∀ x ∈ t, x.length ≤ maxChars := fun x hx => hw x (by simp [hx])
    simp only [wrapLoop]
    split
    · next hfit => exact ih lines _ hwtail hl hfit
    · have hl2 : ∀ l ∈ lines ++ [line], l.length ≤ maxChars := by
        intro l hml2
        rcases List.mem_append.1 hml2 with hml2 | hml2
        · exact hl l hml2
        · simp at hml2; subst hml2; exact hline
      split
      · exact ⟨hl2, hwhead⟩
      · exact ih _ _ hwtail hl2 hwhead

/-- C9 counterexample: for the title
`Supercalifragilisticexpialidocious` (a single 34-character word), the
renderer's word-wrap at the fixed width 26 and line count 3 produces a line
longer than 26 characters, so "every produced line is at most the fixed
maximum character width" fails on the code. -/
theorem wrapLines_long_word_cex :
    ¬ (∀ l ∈ wrapLines (jsToUpper (str "Supercalifragilisticexpialidocious")) 26 3,
        l.length ≤ 26) := by decide

/-- C9 amended: for every text and for the configured `2 ≤ maxLines` (the
renderer uses 3 for titles and 2 for subtitles), `wrapLines` produces at most
`maxLines` lines; and provided every whitespace-separated word of the input
is at most `maxChars` long, every produced line is at most `maxChars`
characters (a longer word is emitted as an over-wide line of its own, which
is what the counterexample exhibits). -/
theorem wrapLines_bounds (text : JSStr) (maxChars maxLines : Nat) (hml : 2 ≤ maxLines) :
    (wrapLines text maxChars maxLines).length ≤ maxLines ∧
    ((∀ w ∈ jsSplitRuns isWs text, w.length ≤ maxChars) →
      ∀ l ∈ wrapLines text maxChars maxLines, l.length ≤ maxChars) := by
  constructor
  · have h := wrapLoop_length_le maxChars maxLines hml (jsSplitRuns isWs text) [] []
      (by simp)
    simp only [wrapLines]
    split
    · simp only [List.length_append, List.length_cons, List.length_nil]
      omega
    · omega
  · intro hwords l hl
    have h := wrapLoop_width maxChars maxLines (jsSplitRuns isWs text) [] [] hwords
      (by simp) (by simp)
    simp only [wrapLines] at hl
    split at hl
    · rcases List.mem_append.1 hl with hm | hm
      · exact h.1 l hm
      · simp at hm; subst hm; exact h.2
    · exact h.1 l hl

/-- Witness for C9 (amended) at the end-to-end scenario title. -/
theorem wrapLines_bounds_witness :
    (wrapLines (str "KITCHEN REMODEL TIPS") 26 3).length ≤ 3 ∧
    (∀ l ∈ wrapLines (str "KITCHEN REMODEL TIPS") 26 3, l.length ≤ 26) := by
  have h := wrapLines_bounds (str "KITCHEN REMODEL TIPS") 26 3 (by decide)
  exact ⟨h.1, h.2 (by decide)⟩

/- ---------- getPageToken theorem (C8) ---------- -/

/-- C8: for every accounts-list response, `getPageToken` returns the embedded
token of the first entry whose id equals the configured page id; raises the
not-found error when no entry matches or the matching entry lacks a (truthy)
token; and raises the configuration error when the accounts list is absent or
malformed (`data` not a truthy array). -/
theorem getPageToken_spec (pageId : JSStr) (accounts : Option (List PageEntry)) :
    (accounts = none →
      getPageToken pageId accounts = .configError (str "me/accounts failed")) ∧
    (∀ pages, accounts = some pages →
      (pages.find? (fun p => decide (p.id = pageId)) = none →
        getPageToken pageId accounts = .notFound (str "PAGE_TOKEN not found")) ∧
      (∀ page, pages.find? (fun p => decide (p.id = pageId)) = some page →
        (∀ tok, page.access_token = some tok → tok ≠ [] →
          getPageToken pageId accounts = .ok tok) ∧
        (page.access_token = none ∨ page.access_token = some [] →
          getPageToken pageId accounts = .notFound (str "PAGE_TOKEN not found")))) := by
  refine ⟨fun h => by rw [h]; rfl, ?_⟩
  rintro pages rfl
  refine ⟨fun hf => by simp [getPageToken, hf], ?_⟩
  intro page hf
  constructor
  · intro tok ht hne
    have htok : tok.isEmpty = false := by
      cases tok with
      | nil => exact absurd rfl hne
      | cons a t => rfl
    simp [getPageToken, hf, ht, htok]
  · rintro (ht | ht) <;> simp [getPageToken, hf, ht]

/-- Witness for C8: a two-entry accounts list whose second entry matches. -/
theorem getPageToken_spec_witness :
    getPageToken (str "p1") (some [⟨str "p0", none⟩, ⟨str "p1", some (str "tok")⟩]) =
      PageTokenResult.ok (str "tok") := by
  have h := getPageToken_spec (str "p1")
    (some [⟨str "p0", none⟩, ⟨str "p1", some (str "tok")⟩])
  exact ((h.2 _ rfl).2 ⟨str "p1", some (str "tok")⟩ (by decide)).1 (str "tok") rfl (by decide)

/- ---------- writePost index theorems (C10) ---------- -/

theorem countSlug_cons (x : IndexEntry) (l : List IndexEntry) (s : JSStr) :
    countSlug (x :: l) s = (if x.slug = s then 1 else 0) + countSlug l s := by
  simp only [countSlug]
  by_cases h : x.slug = s
  · rw [List.filter_cons_of_pos (by simp [h]), if_pos h]
    simp only [List.length_cons]
    omega
  · rw [List.filter_cons_of_neg (by simp [h]), if_neg h]
    simp

theorem countSlug_filter_ne (idx : List IndexEntry) (e : IndexEntry) (s : JSStr) :
    countSlug (idx.filter (fun p => !decide (p.slug = e.slug))) s =
      if s = e.slug then 0 else countSlug idx s := by
  induction idx with
  | nil => simp [countSlug]
  | cons a t ih =>
    by_cases ha : a.slug = e.slug
    · rw [List.filter_cons_of_neg (by simp [ha]), ih, countSlug_cons]
      by_cases hs : s = e.slug
      · simp [hs]
      · have has : ¬ a.slug = s := fun h => hs (h.symm.trans ha)
        simp [hs, has]
    · rw [List.filter_cons_of_pos (by simp [ha]), countSlug_cons, countSlug_cons, ih]
      by_cases hs : s = e.slug
      · have has : ¬ a.slug = s := fun h => ha (h.trans hs)
        simp [hs, has, ha]
      · simp [hs]

theorem countSlug_writePostIndex (idx : List IndexEntry) (e : IndexEntry) (s : JSStr) :
    countSlug (writePostIndex idx e) s = if s = e.slug then 1 else countSlug idx s := by
  unfold writePostIndex
  rw [countSlug_cons, countSlug_filter_ne]
  by_cases hs : s = e.slug
  · rw [if_pos hs, if_pos hs, if_pos hs.symm]
  · rw [if_neg hs, if_neg hs, if_neg (fun h => hs h.symm)]
    simp

theorem countSlug_foldl_le (ops : List IndexEntry) :
    ∀ acc, (∀ s, countSlug acc s ≤ 1) → ∀ s, countSlug (ops.foldl writePostIndex acc) s ≤ 1 := by
  induction ops with
  | nil => intro acc h s; simpa using h s
  | cons a t ih =>
    intro acc h s
    simp only [List.foldl_cons]
    refine ih _ (fun u => ?_) s
    rw [countSlug_writePostIndex]
    split
    · exact le_refl 1
    · exact h u

/-- C10: after any completed sequence of `writePost` calls (the index starting
empty, as an unreadable index file is replaced by `[]`), the index holds at
most one summary entry per slug, the entry for the just-written slug is the
first element, and exactly one entry carries that slug (any previous entry
for it having been removed). -/
theorem writePost_index_invariant (ops : List IndexEntry) (e : IndexEntry) :
    ((ops ++ [e]).foldl writePostIndex []).head? = some e ∧
    (∀ s, countSlug ((ops ++ [e]).foldl writePostIndex []) s ≤ 1) ∧
    countSlug ((ops ++ [e]).foldl writePostIndex []) e.slug = 1 := by
  rw [List.foldl_append]
  simp only [List.foldl_cons, List.foldl_nil]
  have hinv : ∀ s, countSlug (ops.foldl writePostIndex []) s ≤ 1 :=
    countSlug_foldl_le ops [] (fun s => by simp [countSlug])
  refine ⟨rfl, fun s => ?_, ?_⟩
  · rw [countSlug_writePostIndex]
    split
    · exact le_refl 1
    · exact hinv s
  · rw [countSlug_writePostIndex, if_pos rfl]

/- ---------- waitUntilFinished theorems (C4) ---------- -/

theorem wait_reach (status : Nat → Option JSStr) (timeoutMs pollMs : Nat) (hp : 0 < pollMs) :
    ∀ k, k * pollMs < timeoutMs →
      (∀ j < k, statusReady (status j) = false ∧ status j ≠ some (str "ERROR")) →
      waitUntilFinished status timeoutMs pollMs hp =
        waitUntilFinishedGo status pollMs timeoutMs hp k (k * pollMs) := by
  intro k
  induction k with
  | zero =>
    intro _ _
    show waitUntilFinishedGo status pollMs timeoutMs hp 0 0 = _
    rw [Nat.zero_mul]
  | succ k ih =>
    intro hk hpre
    have hmul : (k + 1) * pollMs = k * pollMs + pollMs := by ring
    have hk' : k * pollMs < timeoutMs := by omega
    rw [hmul, ih hk' (fun j hj => hpre j (by omega))]
    conv_lhs => rw [waitUntilFinishedGo]
    rw [dif_pos hk', if_neg (by simp [(hpre k (by omega)).1]), if_neg (hpre k (by omega)).2]

theorem wait_timeout_aux (status : Nat → Option JSStr) (timeoutMs pollMs : Nat)
    (hp : 0 < pollMs)
    (hall : ∀ k, k * pollMs < timeoutMs →
      statusReady (status k) = false ∧ status k ≠ some (str "ERROR")) :
    ∀ m k, timeoutMs - k * pollMs ≤ m →
      waitUntilFinishedGo status pollMs timeoutMs hp k (k * pollMs) = .timeoutError := by
  intro m
  induction m with
  | zero =>
    intro k hk
    rw [waitUntilFinishedGo, dif_neg (by omega)]
  | succ n ih =>
    intro k hk
    by_cases hlt : k * pollMs < timeoutMs
    · rw [waitUntilFinishedGo, dif_pos hlt, if_neg (by simp [(hall k hlt).1]),
        if_neg (hall k hlt).2]
      have hmul : k * pollMs + pollMs = (k + 1) * pollMs := by ring
      rw [hmul]
      exact ih (k + 1) (by rw [← hmul]; omega)
    · rw [waitUntilFinishedGo, dif_neg hlt]

/-- C4: for every status sequence, `waitUntilFinished` returns successfully on
the first poll whose status is `FINISHED` or absent (or empty, which is
equally falsy) and not before; it raises the processing error immediately on
the first poll showing `ERROR` without polling further; and it raises the
timeout error when `timeoutMs` elapses (poll `k` occurring at elapsed time
`k * pollMs`) before any terminal status is seen. -/
theorem waitUntilFinished_spec (status : Nat → Option JSStr) (timeoutMs pollMs : Nat)
    (hp : 0 < pollMs) :
    (∀ k, k * pollMs < timeoutMs → statusReady (status k) = true →
      (∀ j < k, statusReady (status j) = false ∧ status j ≠ some (str "ERROR")) →
      waitUntilFinished status timeoutMs pollMs hp = .finished k) ∧
    (∀ k, k * pollMs < timeoutMs → status k = some (str "ERROR") →
      (∀ j < k, statusReady (status j) = false ∧ status j ≠ some (str "ERROR")) →
      waitUntilFinished status timeoutMs pollMs hp = .processingError k) ∧
    ((∀ k, k * pollMs < timeoutMs →
        statusReady (status k) = false ∧ status k ≠ some (str "ERROR")) →
      waitUntilFinished status timeoutMs pollMs hp = .timeoutError) := by
  refine ⟨?_, ?_, ?_⟩
  · intro k hk hready hpre
    rw [wait_reach status timeoutMs pollMs hp k hk hpre]
    conv_lhs => rw [waitUntilFinishedGo]
    rw [dif_pos hk, if_pos hready]
  · intro k hk herr hpre
    rw [wait_reach status timeoutMs pollMs hp k hk hpre]
    conv_lhs => rw [waitUntilFinishedGo]
    rw [dif_pos hk, if_neg (by rw [herr]; decide), if_pos herr]
  · intro hall
    have h := wait_timeout_aux status timeoutMs pollMs hp hall timeoutMs 0 (by omega)
    rw [Nat.zero_mul] at h
    exact h

/-- Witness for C4 at the spec's example sequence `PROCESSING, PROCESSING,
FINISHED` with the default 180000/3000 budgets: success after the third poll
(index 2). -/
theorem waitUntilFinished_spec_witness :
    waitUntilFinished
      (fun k => if k < 2 then some (str "PROCESSING") else some (str "FINISHED"))
      180000 3000 (by norm_num) = WaitResult.finished 2 := by
  have h := waitUntilFinished_spec
    (fun k => if k < 2 then some (str "PROCESSING") else some (str "FINISHED"))
    180000 3000 (by norm_num)
  exact h.1 2 (by norm_num) (by decide) (by decide)

/- ---------- publishMedia theorems (C1) ---------- -/

/-- C1 counterexample: against a platform that would answer the first three
publish requests with a "media not ready" error (code 9007, subcode 2207027)
and the fourth with a success carrying an id, `publishMedia` does not return
the success result after 4 attempts: it makes exactly one request and raises
immediately on the not-ready error. -/
theorem publishMedia_notReady_cex :
    (publishMediaRun (fun i =>
      if i < 3 then ⟨false, 400, none, some 9007, some 2207027⟩
      else ⟨true, 200, some (str "17900000000001"), none, none⟩)).1 =
      Except.error (str "IG media_publish failed") ∧
    (publishMediaRun (fun i =>
      if i < 3 then ⟨false, 400, none, some 9007, some 2207027⟩
      else ⟨true, 200, some (str "17900000000001"), none, none⟩)).2 = 1 :=
  ⟨rfl, rfl⟩

/-- C1 amended: `publishMedia` issues exactly one request per call and never
retries: it returns the platform id exactly when the single response is a
success carrying a truthy id, and raises `IG media_publish failed`
immediately on any error response — the "media not ready" code/subcode
included, since the error fields are never inspected. -/
theorem publishMedia_single_attempt (responses : Nat → GraphPostResponse) :
    (publishMediaRun responses).2 = 1 ∧
    (∀ t, (publishMediaRun responses).1 = Except.ok t ↔
      (responses 0).ok = true ∧ (responses 0).id = some t ∧ t ≠ []) ∧
    ((responses 0).ok = false ∨ (responses 0).id = none ∨ (responses 0).id = some [] →
      (publishMediaRun responses).1 = Except.error (str "IG media_publish failed")) := by
  refine ⟨rfl, ?_, ?_⟩
  · intro t
    simp only [publishMediaRun, publishMedia, truthyOpt]
    cases hok : (responses 0).ok with
    | false => simp
    | true =>
      cases hid : (responses 0).id with
      | none => simp
      | some s =>
        cases s with
        | nil => simp
        | cons a r =>
          simp [eq_comm]
          rintro rfl
          simp
  · intro hbad
    simp only [publishMediaRun, publishMedia, truthyOpt]
    rcases hbad with h | h | h <;> simp [h]

/-- Witness for C1 (amended) at a concrete success response. -/
theorem publishMedia_single_attempt_witness :
    (publishMediaRun (fun _ => ⟨true, 200, some (str "42"), none, none⟩)).2 = 1 ∧
    (publishMediaRun (fun _ => ⟨true, 200, some (str "42"), none, none⟩)).1 =
      Except.ok (str "42") := by
  have h := publishMedia_single_attempt (fun _ => ⟨true, 200, some (str "42"), none, none⟩)
  exact ⟨h.1, (h.2.1 (str "42")).mpr ⟨rfl, rfl, by decide⟩⟩

/- ---------- main env-validation theorems (C2) ---------- -/

theorem isEmpty_false_of_ne {l : JSStr} (h : l ≠ []) : l.isEmpty = false := by
  cases l with
  | nil => exact absurd rfl h
  | cons a t => rfl

/-- C2 counterexample: with PAGE_ID, FB_LONG_USER_TOKEN and MEDIA_URL present
but the required CLOUDINARY_CLOUD_NAME missing (image path), the run fails
with an error naming the variable only inside the upload step, after the
original-URL probe: one network call precedes the failure, not zero. -/
theorem mainRun_cloudinary_env_cex :
    mainRun envNoCloudName oracleAllOk =
      (RunOutcome.failure (str "Missing env: CLOUDINARY_CLOUD_NAME"), 1) := rfl

/-- C2 amended: missing PAGE_ID, FB_LONG_USER_TOKEN or MEDIA_URL fails fast
with an error naming the variable before any network call (call count 0);
the Cloudinary variables, though documented as required, are validated only
inside the upload step, so on the image path a missing
CLOUDINARY_CLOUD_NAME fails after exactly one network call (the original
media probe) rather than before any. -/
theorem mainRun_env_validation (e : Env) (o : NetOracle) :
    (e.PAGE_ID = [] → mainRun e o = (.failure (str "Missing env: PAGE_ID"), 0)) ∧
    (e.PAGE_ID ≠ [] → e.FB_LONG_USER_TOKEN = [] →
      mainRun e o = (.failure (str "Missing env: FB_LONG_USER_TOKEN"), 0)) ∧
    (e.PAGE_ID ≠ [] → e.FB_LONG_USER_TOKEN ≠ [] → e.MEDIA_URL = [] →
      mainRun e o = (.failure (str "Missing env: MEDIA_URL"), 0)) ∧
    (e.PAGE_ID ≠ [] → e.FB_LONG_USER_TOKEN ≠ [] → e.MEDIA_URL ≠ [] →
      isVideoEnv e = false → e.CLOUDINARY_CLOUD_NAME = [] →
      mainRun e o = (.failure (str "Missing env: CLOUDINARY_CLOUD_NAME"), 1)) := by
  refine ⟨?_, ?_, ?_, ?_⟩
  · intro h1
    simp [mainRun, h1]
  · intro h1 h2
    simp [mainRun, isEmpty_false_of_ne h1, h2]
  · intro h1 h2 h3
    simp [mainRun, isEmpty_false_of_ne h1, isEmpty_false_of_ne h2, h3]
  · intro h1 h2 h3 hv h4
    simp [mainRun, isEmpty_false_of_ne h1, isEmpty_false_of_ne h2, isEmpty_false_of_ne h3,
      hv, uploadToCloudinaryWithEagerRun, h4]

/-- Witness for C2 (amended): the all-empty environment fails on PAGE_ID with
zero network calls. -/
theorem mainRun_env_validation_witness :
    mainRun envAllEmpty oracleAllOk = (RunOutcome.failure (str "Missing env: PAGE_ID"), 0) := by
  have h := mainRun_env_validation envAllEmpty oracleAllOk
  exact h.1 rfl

/- ---------- Cloudinary signing theorems (C3) ---------- -/

/-- C3 counterexample: for the buffer-upload request of fbPublish.js with
folder `social_overlayed`, format `jpg`, timestamp 7, api key `key`, secret
`sec` and no public id, the string the code hashes differs from the
lexicographically key-sorted `key=value` string over every sent parameter
except the file payload and the signature: the request's `api_key` parameter
is sent but never signed. -/
theorem cloudinary_signing_cex :
    claimedSigningString
        (fbRequestParams (str "f") (str "key") 7 (str "social_overlayed") (str "jpg")
          (str "sig") []) (str "sec") ≠
      fbToSign (str "social_overlayed") (str "jpg") 7 (str "sec") := by decide

/-- C3 amended: in every signed Cloudinary upload request of the repository,
the string hashed with SHA-1 is the lexicographically key-sorted `key=value`
join of a signed parameter subset concatenated with the shared secret, and in
every variant that subset excludes — besides the file payload and the
signature itself — the sent `api_key`; beyond that the variants differ: the
buffer upload (fbPublish.js) also leaves `public_id` unsigned, the
igPublish.js eager upload also leaves `async` unsigned, while the part_004
eager upload signs `async` too (everything sent except file, signature and
api_key).  The signed keys are in strictly increasing lexicographic order
and every signed parameter is sent in the request with the same value. -/
theorem cloudinary_signing_sorted_subset
    (fileDataUri apiKey folder fmt signature publicId secret fileUrl eager : JSStr) (ts : Nat) :
    fbToSign folder fmt ts secret =
      claimedSigningString
        ((fbRequestParams fileDataUri apiKey ts folder fmt signature publicId).filter
          (fun kv => !decide (kv.1 = str "api_key") && !decide (kv.1 = str "public_id")))
        secret ∧
    (sortPairsByKey (fbSigningParams folder fmt ts)).map Prod.fst =
      [str "folder", str "format", str "timestamp"] ∧
    (∀ kv ∈ fbSigningParams folder fmt ts,
      kv ∈ fbRequestParams fileDataUri apiKey ts folder fmt signature publicId) ∧
    igToSign eager folder fmt ts secret =
      claimedSigningString
        ((igRequestParams fileUrl apiKey ts folder eager fmt signature).filter
          (fun kv => !decide (kv.1 = str "api_key") && !decide (kv.1 = str "async")))
        secret ∧
    fbEagerToSign eager folder fmt ts secret =
      claimedSigningString
        ((fbEagerRequestParams fileUrl apiKey ts folder eager fmt signature).filter
          (fun kv => !decide (kv.1 = str "api_key")))
        secret ∧
    List.Chain' (fun a b => jsStrLt a b = true)
      [str "async", str "eager", str "folder", str "format", str "timestamp"] := by
  refine ⟨?_, rfl, ?_, ?_, ?_,
    List.chain'_cons.mpr ⟨by decide, List.chain'_cons.mpr ⟨by decide,
      List.chain'_cons.mpr ⟨by decide, List.chain'_cons.mpr ⟨by decide,
        List.chain'_singleton _⟩⟩⟩⟩⟩
  · cases hpub : publicId.isEmpty <;> simp only [fbRequestParams, hpub] <;> rfl
  · intro kv hkv
    simp only [fbSigningParams, List.mem_cons, List.not_mem_nil, or_false] at hkv
    rcases hkv with rfl | rfl | rfl <;> simp [fbRequestParams]
  · have hr : claimedSigningString
        ((igRequestParams fileUrl apiKey ts folder eager fmt signature).filter
          (fun kv => !decide (kv.1 = str "api_key") && !decide (kv.1 = str "async")))
        secret =
        ((str "eager" ++ str "=" ++ eager) ++ str "&" ++
         ((str "folder" ++ str "=" ++ folder) ++ str "&" ++
          ((str "format" ++ str "=" ++ fmt) ++ str "&" ++
           (str "timestamp" ++ str "=" ++ natStr ts)))) ++ secret := rfl
    rw [hr]
    simp only [igToSign, List.append_assoc]
    rfl
  · have hr : claimedSigningString
        ((fbEagerRequestParams fileUrl apiKey ts folder eager fmt signature).filter
          (fun kv => !decide (kv.1 = str "api_key")))
        secret =
        ((str "async" ++ str "=" ++ str "false") ++ str "&" ++
         ((str "eager" ++ str "=" ++ eager) ++ str "&" ++
          ((str "folder" ++ str "=" ++ folder) ++ str "&" ++
           ((str "format" ++ str "=" ++ fmt) ++ str "&" ++
            (str "timestamp" ++ str "=" ++ natStr ts))))) ++ secret := rfl
    rw [hr]
    simp only [fbEagerToSign, List.append_assoc]
    rfl

/-- Witness for C3 (amended) at concrete parameter values. -/
theorem cloudinary_signing_sorted_subset_witness :
    fbToSign (str "social_overlayed") (str "jpg") 7 (str "sec") =
      claimedSigningString
        ((fbRequestParams (str "f") (str "key") 7 (str "social_overlayed") (str "jpg")
          (str "sig") []).filter
          (fun kv => !decide (kv.1 = str "api_key") && !decide (kv.1 = str "public_id")))
        (str "sec") ∧
    (str "folder", str "social_overlayed") ∈
      fbRequestParams (str "f") (str "key") 7 (str "social_overlayed") (str "jpg")
        (str "sig") [] := by
  have h := cloudinary_signing_sorted_subset (str "f") (str "key") (str "social_overlayed")
    (str "jpg") (str "sig") [] (str "sec") (str "u") (str "E") 7
  exact ⟨h.1, h.2.2.1 (str "folder", str "social_overlayed") (by decide)⟩

end Flipwise
